import Mathlib

/-!
Verification development for a Go client library (`pwm-gcp-genai`) that
normalizes multimodal inputs, manages a cached OAuth token, and invokes a
hosted generative-AI backend with a classifying, exponential-backoff retry
policy.  The definitions below are shallow embeddings of the Go source
functions; effectful collaborators (filesystem, HTTP, credential provider,
object-store metadata) are passed in explicitly as environments, and the
count of calls made to each collaborator is returned alongside the result.
-/

/-! ## String helpers mirroring the Go standard library -/

/-- Embeds `strings.HasPrefix` via character lists: `listStarts pat l`
is true iff `pat` is an initial segment of `l`. -/
def listStarts : List Char → List Char → Bool
  | [], _ => true
  | _ :: _, [] => false
  | a :: as, b :: bs => a == b && listStarts as bs

/-- Embeds `strings.Contains` via character lists: true iff `pat` occurs
contiguously inside the list. -/
def listContainsSub : List Char → List Char → Bool
  | _, [] => true
  | [], _ :: _ => false
  | h :: t, p :: ps => listStarts (p :: ps) (h :: t) || listContainsSub t (p :: ps)

/-- Embeds Go `strings.Contains s pat`. -/
def strContains (s pat : String) : Bool :=
  listContainsSub s.toList pat.toList

/-- Embeds Go `strings.HasPrefix s pat`. -/
def strHasPre (s pat : String) : Bool :=
  listStarts pat.toList s.toList

/-- Embeds Go `filepath.Ext`: scan the path from the end; stop at a path
separator; return the suffix starting at the final dot (empty if none).
Implemented on the reversed character list. -/
def pathExtRev : List Char → List Char → String
  | [], _ => ""
  | c :: rest, acc =>
    if c = '/' then ""
    else if c = '.' then String.mk (c :: acc)
    else pathExtRev rest (c :: acc)

/-- Embeds Go `filepath.Ext` on a path string. -/
def pathExt (p : String) : String :=
  pathExtRev p.toList.reverse []

/-- Embeds Go `strings.Join contents "\n"`. -/
def joinNL : List String → String
  | [] => ""
  | [s] => s
  | s :: rest => s ++ "\n" ++ joinNL rest

/-- Modelled from the Go standard library `mime.TypeByExtension` builtin
table (the compiled-in lowercase extension map); an extension with no
associated type yields the empty string, as documented for that function. -/
def typeByExtension (ext : String) : String :=
  if ext = ".avif" then "image/avif"
  else if ext = ".css" then "text/css; charset=utf-8"
  else if ext = ".csv" then "text/csv; charset=utf-8"
  else if ext = ".gif" then "image/gif"
  else if ext = ".htm" then "text/html; charset=utf-8"
  else if ext = ".html" then "text/html; charset=utf-8"
  else if ext = ".jpeg" then "image/jpeg"
  else if ext = ".jpg" then "image/jpeg"
  else if ext = ".js" then "text/javascript; charset=utf-8"
  else if ext = ".json" then "application/json"
  else if ext = ".mjs" then "text/javascript; charset=utf-8"
  else if ext = ".pdf" then "application/pdf"
  else if ext = ".png" then "image/png"
  else if ext = ".svg" then "image/svg+xml"
  else if ext = ".wasm" then "application/wasm"
  else if ext = ".webp" then "image/webp"
  else if ext = ".xml" then "text/xml; charset=utf-8"
  else ""

/-- Embeds the content-type fallback chain of `BlobInput.ToPart`
(gemini.go lines 121-124 and 135-137): take the sniffed type from
`http.DetectContentType`; if it is the generic octet-stream type, replace
it by the extension lookup of the source path. -/
def inferBlobMime (sniffed path : String) : String :=
  if sniffed = "application/octet-stream" then typeByExtension (pathExt path)
  else sniffed

/-! ## Retry loops

Backend attempts are modelled as a function from the zero-based attempt
index to the attempt's outcome; each loop returns the final outcome paired
with the number of attempts actually made. -/

/-- Embeds `shouldRetry` (genai.go): an error is retryable iff its message
contains the substring "429" or "529". -/
def shouldRetry (e : String) : Bool :=
  strContains e "429" || strContains e "529"

/-- Loop body of `retryableGenerateContent` (genai.go): fuel counts the
remaining retries (`MaxRetries - retry`), `idx` is the current attempt
index.  A non-retryable error returns immediately wrapped with
"generate content failed"; exhausting the budget on retryable errors
returns the "max retries reached" error naming `MaxRetries`. -/
def retryClassifiedAux {α : Type} (f : Nat → Except String α) (maxR : Nat) :
    Nat → Nat → Except String α × Nat
  | 0, idx =>
    match f idx with
    | .ok a => (.ok a, 1)
    | .error e =>
      if shouldRetry e then
        (.error ("max retries reached after " ++ toString maxR ++ " attempts, last error: " ++ e), 1)
      else
        (.error ("generate content failed: " ++ e), 1)
  | fuel + 1, idx =>
    match f idx with
    | .ok a => (.ok a, 1)
    | .error e =>
      if shouldRetry e then
        let r := retryClassifiedAux f maxR fuel (idx + 1)
        (r.1, r.2 + 1)
      else
        (.error ("generate content failed: " ++ e), 1)

/-- Embeds `retryableGenerateContent` (genai.go): run the classified retry
loop with `maxRetries` retries after the initial attempt. -/
def retryableGenerateContent {α : Type} (f : Nat → Except String α) (maxRetries : Nat) :
    Except String α × Nat :=
  retryClassifiedAux f maxRetries maxRetries 0

/-- Loop body of the unclassified `retryableGenerateContent` (gemini.go):
every error is retried until the budget is exhausted. -/
def geminiRetryAllAux {α : Type} (f : Nat → Except String α) (maxR : Nat) :
    Nat → Nat → Except String α × Nat
  | 0, idx =>
    match f idx with
    | .ok a => (.ok a, 1)
    | .error e =>
      (.error ("max retries reached after " ++ toString maxR ++ " attempts, last error: " ++ e), 1)
  | fuel + 1, idx =>
    match f idx with
    | .ok a => (.ok a, 1)
    | .error _ =>
      let r := geminiRetryAllAux f maxR fuel (idx + 1)
      (r.1, r.2 + 1)

/-- Embeds `retryableGenerateContent` (gemini.go, unclassified variant). -/
def geminiRetryAll {α : Type} (f : Nat → Except String α) (maxRetries : Nat) :
    Except String α × Nat :=
  geminiRetryAllAux f maxRetries maxRetries 0

/-- Loop body of `callClaudeModel` (claude.go): every error is retried;
at `i = MaxRetries` (fuel 0) the loop returns the error
"failed after N retries" wrapping the last underlying error. -/
def callClaudeAux {α : Type} (f : Nat → Except String α) (maxR : Nat) :
    Nat → Nat → Except String α × Nat
  | 0, idx =>
    match f idx with
    | .ok a => (.ok a, 1)
    | .error e =>
      (.error ("failed after " ++ toString maxR ++ " retries: " ++ e), 1)
  | fuel + 1, idx =>
    match f idx with
    | .ok a => (.ok a, 1)
    | .error _ =>
      let r := callClaudeAux f maxR fuel (idx + 1)
      (r.1, r.2 + 1)

/-- Embeds `callClaudeModel` (claude.go): one initial attempt plus up to
`maxRetries` retries with exponential backoff. -/
def callClaudeModel {α : Type} (f : Nat → Except String α) (maxRetries : Nat) :
    Except String α × Nat :=
  callClaudeAux f maxRetries maxRetries 0

/-! ## Shared lemmas about the retry loops -/

theorem retryClassifiedAux_attempts_pos {α : Type} (f : Nat → Except String α)
    (maxR fuel idx : Nat) : 1 ≤ (retryClassifiedAux f maxR fuel idx).2 := by
  cases fuel with
  | zero =>
    simp only [retryClassifiedAux]
    cases f idx with
    | ok a => simp
    | error e =>
      by_cases h : shouldRetry e = true <;> simp [h]
  | succ n =>
    simp only [retryClassifiedAux]
    cases f idx with
    | ok a => simp
    | error e =>
      by_cases h : shouldRetry e = true <;> simp [h]

theorem callClaudeAux_all_fail {α : Type} (f : Nat → Except String α)
    (errs : Nat → String) (hf : ∀ i, f i = .error (errs i)) (maxR : Nat) :
    ∀ fuel idx, callClaudeAux f maxR fuel idx =
      (.error ("failed after " ++ toString maxR ++ " retries: " ++ errs (idx + fuel)), fuel + 1) := by
  intro fuel
  induction fuel with
  | zero =>
    intro idx
    simp [callClaudeAux, hf idx]
  | succ n ih =>
    intro idx
    simp only [callClaudeAux, hf idx]
    rw [ih (idx + 1)]
    have hx : idx + 1 + n = idx + (n + 1) := by omega
    simp [hx]

theorem geminiRetryAllAux_all_fail {α : Type} (f : Nat → Except String α)
    (errs : Nat → String) (hf : ∀ i, f i = .error (errs i)) (maxR : Nat) :
    ∀ fuel idx, geminiRetryAllAux f maxR fuel idx =
      (.error ("max retries reached after " ++ toString maxR ++ " attempts, last error: " ++ errs (idx + fuel)), fuel + 1) := by
  intro fuel
  induction fuel with
  | zero =>
    intro idx
    simp [geminiRetryAllAux, hf idx]
  | succ n ih =>
    intro idx
    simp only [geminiRetryAllAux, hf idx]
    rw [ih (idx + 1)]
    have hx : idx + 1 + n = idx + (n + 1) := by omega
    simp [hx]

/-! ## Claim C1 -/

/-- C1 counterexample: the cited `retryableGenerateContent` of gemini.go
(lines 58-77) never consults `shouldRetry` — it retries EVERY error.  A
non-retryable error ("400 bad request", which carries no 429/529 marker)
on the first attempt with `maxRetries = 3` therefore produces 4 attempts
and the exhaustion error, not the immediate single-attempt return the
claim demands for every cited retry loop. -/
theorem gemini_retry_all_errors_cx :
    shouldRetry "400 bad request" = false ∧
    geminiRetryAll (fun _ => (.error "400 bad request" : Except String Unit)) 3 =
      (.error ("max retries reached after " ++ toString 3 ++ " attempts, last error: " ++
        "400 bad request"), 3 + 1) := by
  exact ⟨by decide, rfl⟩

/-- C1 (amended): only the classifying retry policy of genai.go
(`shouldRetry` / `retryableGenerateContent`) behaves as claimed — an
error is retried iff its message carries a "429" or "529" marker, and on
ANY attempt a non-retryable error terminates the loop at once (so a
non-retryable error on the first attempt yields exactly 1 attempt
regardless of `maxRetries`); the `retryableGenerateContent` of gemini.go,
also cited by the claim, retries every error, so a permanently failing
non-retryable error there still consumes `maxRetries + 1` attempts before
the exhaustion error is returned. -/
theorem retry_policy_classification_amended {α : Type} (f : Nat → Except String α)
    (maxRetries : Nat) (e : String) :
    shouldRetry e = (strContains e "429" || strContains e "529") ∧
    (∀ fuel idx, f idx = .error e → shouldRetry e = false →
      retryClassifiedAux f maxRetries fuel idx =
        (.error ("generate content failed: " ++ e), 1)) ∧
    (f 0 = .error e → shouldRetry e = false →
      retryableGenerateContent f maxRetries = (.error ("generate content failed: " ++ e), 1)) ∧
    (∀ fuel idx, f idx = .error e → 1 ≤ fuel →
      (2 ≤ (retryClassifiedAux f maxRetries fuel idx).2 ↔ shouldRetry e = true)) ∧
    (∀ (errs : Nat → String), (∀ i, f i = .error (errs i)) →
      geminiRetryAll f maxRetries =
        (.error ("max retries reached after " ++ toString maxRetries ++
          " attempts, last error: " ++ errs maxRetries), maxRetries + 1)) := by
  have hstop : ∀ fuel idx, f idx = .error e → shouldRetry e = false →
      retryClassifiedAux f maxRetries fuel idx =
        (.error ("generate content failed: " ++ e), 1) := by
    intro fuel idx h hno
    cases fuel with
    | zero => simp [retryClassifiedAux, h, hno]
    | succ n => simp [retryClassifiedAux, h, hno]
  refine ⟨rfl, hstop, ?_, ?_, ?_⟩
  · intro h0 hno
    exact hstop maxRetries 0 h0 hno
  · intro fuel idx h hfuel
    cases fuel with
    | zero => omega
    | succ n =>
      by_cases hr : shouldRetry e = true
      · have hb := retryClassifiedAux_attempts_pos f maxRetries n (idx + 1)
        simp only [retryClassifiedAux, h, hr, if_true, iff_true]
        change 2 ≤ (retryClassifiedAux f maxRetries n (idx + 1)).2 + 1
        omega
      · have hr' : shouldRetry e = false := by
          cases hx : shouldRetry e
          · rfl
          · exact absurd hx hr
        simp [hstop (n + 1) idx h hr', hr']
  · intro errs hf
    have := geminiRetryAllAux_all_fail f errs hf maxRetries maxRetries 0
    simpa [geminiRetryAll] using this

/-- Witness for the amended C1: a concrete non-retryable error makes the
classifying loop return after a single wrapped attempt, while the
unclassified gemini.go loop burns all 4 attempts on the same error. -/
theorem retry_policy_classification_amended_witness :
    retryableGenerateContent (fun _ => (.error "400 bad request" : Except String Unit)) 5 =
      (.error ("generate content failed: " ++ "400 bad request"), 1) ∧
    geminiRetryAll (fun _ => (.error "400 bad request" : Except String Unit)) 3 =
      (.error ("max retries reached after " ++ toString 3 ++ " attempts, last error: " ++
        "400 bad request"), 3 + 1) :=
  ⟨(retry_policy_classification_amended
      (fun _ => (.error "400 bad request" : Except String Unit)) 5 "400 bad request").2.2.1
      rfl (by decide),
    (retry_policy_classification_amended
      (fun _ => (.error "400 bad request" : Except String Unit)) 3 "400 bad request").2.2.2.2
      (fun _ => "400 bad request") (fun _ => rfl)⟩

/-! ## Claim C5 -/

/-- C5: when every attempt fails (and is therefore retried — the cited
loop retries every error), `callClaudeModel` with `maxRetries = N` makes
exactly N+1 attempts and returns an error that names N (the retry count:
"failed after N retries") and wraps the last underlying error; for N = 3
this is exactly 4 attempts and an error naming 3 retries. -/
theorem retry_exhaustion_counts {α : Type} (errs : Nat → String)
    (f : Nat → Except String α) (maxRetries : Nat)
    (hf : ∀ i, f i = .error (errs i)) :
    callClaudeModel f maxRetries =
      (.error ("failed after " ++ toString maxRetries ++ " retries: " ++ errs maxRetries),
        maxRetries + 1) := by
  have := callClaudeAux_all_fail f errs hf maxRetries maxRetries 0
  simpa [callClaudeModel] using this

/-- Witness for C5 at `maxRetries = 3`: exactly 4 attempts and an error
naming 3 retries, wrapping the fourth (last) attempt's error. -/
theorem retry_exhaustion_counts_witness :
    callClaudeModel (fun i => (.error ("boom" ++ toString i) : Except String (List Nat))) 3 =
      (.error ("failed after " ++ toString 3 ++ " retries: " ++ ("boom" ++ toString 3)), 3 + 1) :=
  retry_exhaustion_counts (fun i => "boom" ++ toString i)
    (fun i => (.error ("boom" ++ toString i) : Except String (List Nat))) 3 (fun _ => rfl)

/-! ## Credential cache (`getAccessToken`, claude_rest.go / claude.go)

Time is an integer timestamp; `Expiry.Before(now)` is `expiry < now`.
The external credential provider is a pair of fallible results: the
default-credential lookup and the token fetch.  `providerCalls` counts
how many provider operations were performed. -/

structure OAuthToken where
  accessToken : String
  expiry : Int
deriving Repr, DecidableEq

structure ClaudeState where
  token : Option OAuthToken
deriving Repr, DecidableEq

structure CredProvider where
  findDefaultCredentials : Except String Unit
  tokenSource : Except String OAuthToken

structure TokenResult where
  result : Except String String
  state : ClaudeState
  providerCalls : Nat

/-- Embeds the refresh path of `getAccessToken`: `FindDefaultCredentials`
then `TokenSource.Token()`; either failure is returned as-is with the
cached token untouched; on success the cached token is replaced wholesale. -/
def refreshAccessToken (st : ClaudeState) (p : CredProvider) : TokenResult :=
  match p.findDefaultCredentials with
  | .error e => ⟨.error e, st, 1⟩
  | .ok _ =>
    match p.tokenSource with
    | .error e => ⟨.error e, st, 2⟩
    | .ok t => ⟨.ok t.accessToken, ⟨some t⟩, 2⟩

/-- Embeds `getAccessToken` (claude_rest.go lines 96-118): serve the cache
when `Token != nil && !Token.Expiry.Before(now)`, otherwise refresh. -/
def getAccessToken (st : ClaudeState) (now : Int) (p : CredProvider) : TokenResult :=
  match st.token with
  | some t =>
    if t.expiry < now then refreshAccessToken st p
    else ⟨.ok t.accessToken, st, 0⟩
  | none => refreshAccessToken st p

/-! ## Claim C2 -/

/-- C2 counterexample: a cached credential whose expiry equals the current
instant IS served from the cache with zero provider calls, contrary to the
claim that it "must not be served from cache" (the code's guard is
`!Expiry.Before(now)`, i.e. expiry ≥ now, not expiry > now). -/
theorem token_cache_hit_boundary_cx :
    (getAccessToken ⟨some ⟨"tok", 5⟩⟩ 5 ⟨.ok (), .ok ⟨"fresh", 99⟩⟩).providerCalls = 0 ∧
    (getAccessToken ⟨some ⟨"tok", 5⟩⟩ 5 ⟨.ok (), .ok ⟨"fresh", 99⟩⟩).result = .ok "tok" ∧
    ¬ ((5 : Int) < 5) := by
  refine ⟨rfl, rfl, by omega⟩

/-- C2 (amended): the cached access token is returned with zero provider
calls iff a cached credential exists and its expiry is not strictly before
the current time (expiry ≥ now — so a credential expiring exactly now is
still served from cache); when the cache is absent or the expiry is
strictly before now, the provider is contacted. -/
theorem token_cache_hit_iff_not_expired (st : ClaudeState) (now : Int) (p : CredProvider) :
    (∀ t, st.token = some t → now ≤ t.expiry →
      getAccessToken st now p = ⟨.ok t.accessToken, st, 0⟩) ∧
    ((st.token = none ∨ ∃ t, st.token = some t ∧ t.expiry < now) →
      1 ≤ (getAccessToken st now p).providerCalls) := by
  constructor
  · intro t ht hle
    have : ¬ (t.expiry < now) := by omega
    simp [getAccessToken, ht, this]
  · intro h
    rcases h with hnone | ⟨t, ht, hlt⟩
    · simp only [getAccessToken, hnone]
      cases hp : p.findDefaultCredentials with
      | error e => simp [refreshAccessToken, hp]
      | ok u =>
        cases hq : p.tokenSource with
        | error e => simp [refreshAccessToken, hp, hq]
        | ok t => simp [refreshAccessToken, hp, hq]
    · simp only [getAccessToken, ht, hlt, if_true]
      cases hp : p.findDefaultCredentials with
      | error e => simp [refreshAccessToken, hp]
      | ok u =>
        cases hq : p.tokenSource with
        | error e => simp [refreshAccessToken, hp, hq]
        | ok t => simp [refreshAccessToken, hp, hq]

/-- Witness for the amended C2: a still-valid cache is served with zero
provider calls, and an absent cache contacts the provider. -/
theorem token_cache_hit_iff_not_expired_witness :
    getAccessToken ⟨some ⟨"tok", 9⟩⟩ 4 ⟨.ok (), .ok ⟨"fresh", 99⟩⟩ =
      ⟨.ok "tok", ⟨some ⟨"tok", 9⟩⟩, 0⟩ ∧
    1 ≤ (getAccessToken ⟨none⟩ 0 ⟨.ok (), .ok ⟨"fresh", 99⟩⟩).providerCalls :=
  ⟨(token_cache_hit_iff_not_expired ⟨some ⟨"tok", 9⟩⟩ 4 ⟨.ok (), .ok ⟨"fresh", 99⟩⟩).1
      ⟨"tok", 9⟩ rfl (by decide),
    (token_cache_hit_iff_not_expired ⟨none⟩ 0 ⟨.ok (), .ok ⟨"fresh", 99⟩⟩).2 (Or.inl rfl)⟩

/-! ## Claim C10 -/

/-- C10: a failed provider step (default-credential lookup or token fetch)
makes `getAccessToken` return that error with the cached token field left
unchanged; the cached token is replaced only by a fully successful fetch,
whose token is then returned. -/
theorem token_refresh_no_partial_mutation (st : ClaudeState) (now : Int) (p : CredProvider) :
    (∀ e, p.findDefaultCredentials = .error e →
      getAccessToken st now p = ⟨.error e, st, 1⟩ ∨
        (getAccessToken st now p).providerCalls = 0) ∧
    (∀ e, p.findDefaultCredentials = .ok () → p.tokenSource = .error e →
      getAccessToken st now p = ⟨.error e, st, 2⟩ ∨
        (getAccessToken st now p).providerCalls = 0) ∧
    ((getAccessToken st now p).state ≠ st →
      ∃ tk, p.tokenSource = .ok tk ∧
        (getAccessToken st now p).state.token = some tk ∧
        (getAccessToken st now p).result = .ok tk.accessToken) := by
  refine ⟨?_, ?_, ?_⟩
  · intro e he
    cases hst : st.token with
    | none => exact Or.inl (by simp [getAccessToken, hst, refreshAccessToken, he])
    | some t =>
      by_cases hlt : t.expiry < now
      · exact Or.inl (by simp [getAccessToken, hst, hlt, refreshAccessToken, he])
      · exact Or.inr (by simp [getAccessToken, hst, hlt])
  · intro e hok he
    cases hst : st.token with
    | none => exact Or.inl (by simp [getAccessToken, hst, refreshAccessToken, hok, he])
    | some t =>
      by_cases hlt : t.expiry < now
      · exact Or.inl (by simp [getAccessToken, hst, hlt, refreshAccessToken, hok, he])
      · exact Or.inr (by simp [getAccessToken, hst, hlt])
  · intro hch
    cases hst : st.token with
    | none =>
      simp only [getAccessToken, hst] at hch ⊢
      cases hp : p.findDefaultCredentials with
      | error e => simp [refreshAccessToken, hp] at hch
      | ok u =>
        cases hq : p.tokenSource with
        | error e => simp [refreshAccessToken, hp, hq] at hch
        | ok t => exact ⟨t, rfl, by simp [refreshAccessToken, hp, hq]⟩
    | some t0 =>
      by_cases hlt : t0.expiry < now
      · simp only [getAccessToken, hst, hlt, if_true] at hch ⊢
        cases hp : p.findDefaultCredentials with
        | error e => simp [refreshAccessToken, hp] at hch
        | ok u =>
          cases hq : p.tokenSource with
          | error e => simp [refreshAccessToken, hp, hq] at hch
          | ok t => exact ⟨t, rfl, by simp [refreshAccessToken, hp, hq]⟩
      · exact absurd (by simp [getAccessToken, hst, hlt]) hch

/-- Witness for C10: with an absent cache and a failing token fetch, the
error is returned and the cache stays empty. -/
theorem token_refresh_no_partial_mutation_witness :
    getAccessToken ⟨none⟩ 0 ⟨.ok (), .error "denied"⟩ = ⟨.error "denied", ⟨none⟩, 2⟩ ∨
      (getAccessToken ⟨none⟩ 0 ⟨.ok (), .error "denied"⟩).providerCalls = 0 :=
  (token_refresh_no_partial_mutation ⟨none⟩ 0 ⟨.ok (), .error "denied"⟩).2.1 "denied" rfl rfl

/-! ## Response content extraction

A Claude response content entry is a JSON map; we record its "type" field
and, when the "text" field is a JSON string, that string (`none` models a
missing or non-string "text" field, the `ok=false` case of the Go type
assertion).  A Gemini response is its list of candidates, each candidate
being the printed forms of its parts (`fmt.Sprint(part)`). -/

structure ClaudeContent where
  ctype : String
  ctext : Option String
deriving Repr, DecidableEq

/-- Embeds the collection loop of `parseResponseContent` (claude.go lines
214-227): for each entry of type "text", require its text to be a string
(else "invalid text content format") and collect the strings in order. -/
def collectTexts : List ClaudeContent → Except String (List String)
  | [] => .ok []
  | c :: rest =>
    if c.ctype = "text" then
      match c.ctext with
      | none => .error "invalid text content format"
      | some s =>
        match collectTexts rest with
        | .error e => .error e
        | .ok ss => .ok (s :: ss)
    else collectTexts rest

/-- Embeds `parseResponseContent` (claude.go): join the collected text
segments with a newline. -/
def parseResponseContent (content : List ClaudeContent) : Except String String :=
  match collectTexts content with
  | .error e => .error e
  | .ok ss => .ok (joinNL ss)

/-- Text segments of a Claude response, in order. -/
def textsOf (content : List ClaudeContent) : List String :=
  content.filterMap fun c => if c.ctype = "text" then c.ctext else none

structure GeminiResponse where
  candidates : List (List String)
deriving Repr, DecidableEq

/-- Embeds the response unpacking of `Invoke` (gemini.go lines 194-200):
error "no response content found" when there are no candidates or the
first candidate has no parts, else return the first part of the first
candidate (`fmt.Sprint(resp.Candidates[0].Content.Parts[0])`). -/
def geminiExtract (resp : GeminiResponse) : Except String String :=
  match resp.candidates with
  | [] => .error "no response content found"
  | c0 :: _ =>
    match c0 with
    | [] => .error "no response content found"
    | p0 :: _ => .ok p0

theorem collectTexts_all_ok (content : List ClaudeContent)
    (h : ∀ c ∈ content, c.ctype = "text" → c.ctext.isSome) :
    collectTexts content = .ok (textsOf content) := by
  induction content with
  | nil => simp [collectTexts, textsOf]
  | cons c rest ih =>
    have hrest : ∀ x ∈ rest, x.ctype = "text" → x.ctext.isSome := by
      intro x hx
      exact h x (List.mem_cons_of_mem c hx)
    by_cases hc : c.ctype = "text"
    · have hs := h c (List.mem_cons_self c rest) hc
      cases hcx : c.ctext with
      | none => simp [hcx] at hs
      | some s =>
        simp [collectTexts, textsOf, hc, hcx, ih hrest,
          List.filterMap_cons]
    · simp [collectTexts, textsOf, hc, ih hrest, List.filterMap_cons]

/-! ## Claim C3 -/

/-- C3 counterexample: on a Gemini response whose first candidate has the
two text parts "Hello" and "world", the string returned to the caller is
"Hello" — the first part only — not the newline join "Hello\nworld"
demanded by the claim. -/
theorem gemini_first_part_cx :
    geminiExtract ⟨[["Hello", "world"]]⟩ = .ok "Hello" ∧
    "Hello" ≠ "Hello" ++ "\n" ++ "world" := by
  exact ⟨rfl, by decide⟩

/-- C3 (amended): the Claude response parser returns the newline join of
all text-typed segments in order (so segments ["Hello", "world"] yield
"Hello\nworld"), while the Gemini invocation returns only the first part
of the first candidate. -/
theorem response_join_amended (content : List ClaudeContent)
    (h : ∀ c ∈ content, c.ctype = "text" → c.ctext.isSome) :
    parseResponseContent content = .ok (joinNL (textsOf content)) ∧
    ∀ (p : String) (ps : List String) (cs : List (List String)),
      geminiExtract ⟨(p :: ps) :: cs⟩ = .ok p := by
  refine ⟨?_, fun p ps cs => rfl⟩
  simp [parseResponseContent, collectTexts_all_ok content h]

/-- Witness for the amended C3: segments ["Hello", "world"] yield
"Hello\nworld" on the Claude side. -/
theorem response_join_amended_witness :
    parseResponseContent [⟨"text", some "Hello"⟩, ⟨"text", some "world"⟩] =
      .ok (joinNL (textsOf [⟨"text", some "Hello"⟩, ⟨"text", some "world"⟩])) :=
  (response_join_amended [⟨"text", some "Hello"⟩, ⟨"text", some "world"⟩] (by decide)).1

/-! ## Claim C4 -/

/-- C4 counterexample: a Claude response with zero text-typed segments
(here a single image segment, and also the empty response) is returned to
the caller as an empty-string SUCCESS, not as a fatal empty-result
error. -/
theorem empty_claude_response_cx :
    parseResponseContent [⟨"image", none⟩] = .ok "" ∧
    parseResponseContent [] = .ok "" := ⟨rfl, rfl⟩

/-- C4 (amended): the Gemini invocation returns the fatal error "no
response content found" when the response has zero candidates or a first
candidate with zero parts; the Claude parser, by contrast, maps a response
with zero text-typed segments to an empty-string success rather than an
error. -/
theorem empty_response_behavior (cs : List (List String)) (content : List ClaudeContent)
    (h : ∀ c ∈ content, ¬ c.ctype = "text") :
    geminiExtract ⟨[]⟩ = .error "no response content found" ∧
    geminiExtract ⟨[] :: cs⟩ = .error "no response content found" ∧
    parseResponseContent content = .ok "" := by
  refine ⟨rfl, rfl, ?_⟩
  have hall : ∀ c ∈ content, c.ctype = "text" → c.ctext.isSome := by
    intro c hc hct
    exact absurd hct (h c hc)
  have htexts : textsOf content = [] := by
    simp only [textsOf, List.filterMap_eq_nil_iff]
    intro c hc
    simp [h c hc]
  simp [parseResponseContent, collectTexts_all_ok content hall, htexts, joinNL]

/-- Witness for the amended C4: an image-only Claude response yields an
empty-string success and an empty Gemini response yields the fatal
error. -/
theorem empty_response_behavior_witness :
    geminiExtract ⟨[]⟩ = .error "no response content found" ∧
    geminiExtract ⟨[] :: []⟩ = .error "no response content found" ∧
    parseResponseContent [⟨"image", none⟩] = .ok "" :=
  empty_response_behavior [] [⟨"image", none⟩] (by decide)

/-! ## Input normalizer (`Input`, `BlobInput.ToPart`, gemini.go)

The effectful collaborators of `BlobInput.ToPart` are supplied as an
environment: the local filesystem (`os.ReadFile`), the HTTP downloader
(`downloadFile` followed by the re-read of the temp file, abstracted as a
fallible byte fetch; its temp-file lifecycle is modelled separately
below), the object-store metadata lookup, and the byte sniffer
(`http.DetectContentType`, total: it always yields some type).  `Counts`
records how many downloads, local/temp file reads, and metadata queries a
resolution performed. -/

inductive Input where
  | text (s : String)
  | blob (path : String)
deriving Repr, DecidableEq

inductive GPart where
  | text (s : String)
  | blob (mime : String) (data : List Nat)
  | fileData (mime : String) (uri : String)
deriving Repr, DecidableEq

structure Counts where
  downloads : Nat
  fileReads : Nat
  metaQueries : Nat
deriving Repr, DecidableEq

def Counts.add (a b : Counts) : Counts :=
  ⟨a.downloads + b.downloads, a.fileReads + b.fileReads, a.metaQueries + b.metaQueries⟩

structure Env where
  fs : String → Except String (List Nat)
  httpGet : String → Except String (List Nat)
  gcsContentType : String → Except String String
  sniff : List Nat → String

/-- Embeds `getGCSFileMimeTypeFromMetadata` (gemini.go lines 232-260):
query the object's stored content type; on success, fall back to the
extension table when the stored content type is empty.  (The extension of
the object name equals the extension of the gs:// path, since `Ext` stops
at the last separator.) -/
def getGCSFileMimeType (env : Env) (path : String) : Except String String :=
  match env.gcsContentType path with
  | .error e => .error e
  | .ok mt => .ok (if mt = "" then typeByExtension (pathExt path) else mt)

/-- Embeds `BlobInput.ToPart` (gemini.go lines 98-144) together with
`TextInput.ToPart`: dispatch on the path prefix — "gs://" queries object
metadata and emits an external file reference carrying the path as URI;
"http://" or "https://" downloads the blob and re-reads it from the temp
file; anything else is read from the local filesystem.  Blob branches
infer the content type by sniff-then-extension fallback. -/
def toPart (env : Env) : Input → Except String GPart × Counts
  | .text s => (.ok (.text s), ⟨0, 0, 0⟩)
  | .blob path =>
    if strHasPre path "gs://" then
      match getGCSFileMimeType env path with
      | .error e => (.error ("failed to get GCS file mime type: " ++ e), ⟨0, 0, 1⟩)
      | .ok mt => (.ok (.fileData mt path), ⟨0, 0, 1⟩)
    else if strHasPre path "http://" || strHasPre path "https://" then
      match env.httpGet path with
      | .error e => (.error ("failed to download file: " ++ e), ⟨1, 0, 0⟩)
      | .ok data => (.ok (.blob (inferBlobMime (env.sniff data) path) data), ⟨1, 1, 0⟩)
    else
      match env.fs path with
      | .error e => (.error ("failed to read file: " ++ e), ⟨0, 1, 0⟩)
      | .ok data => (.ok (.blob (inferBlobMime (env.sniff data) path) data), ⟨0, 1, 0⟩)

/-- Embeds the input loop of `Invoke` (gemini.go lines 179-187): resolve
the inputs in declaration order, stopping at the first failure with that
failure's error and resolving nothing further. -/
def resolveAll (env : Env) : List Input → Except String (List GPart) × Counts
  | [] => (.ok [], ⟨0, 0, 0⟩)
  | i :: rest =>
    match toPart env i with
    | (.error e, c) => (.error e, c)
    | (.ok p, c) =>
      match resolveAll env rest with
      | (.error e, c') => (.error e, c.add c')
      | (.ok ps, c') => (.ok (p :: ps), c.add c')

/-- Embeds `Invoke` (gemini.go lines 146-201) from input resolution
onward: a resolution failure returns that error with zero backend
attempts; otherwise the resolved parts are sent through the retry loop
and the response is unpacked.  The second component counts backend
attempts. -/
def geminiInvoke (env : Env) (backend : List GPart → Nat → Except String GeminiResponse)
    (maxRetries : Nat) (inputs : List Input) : Except String String × Nat :=
  match (resolveAll env inputs).1 with
  | .error e => (.error e, 0)
  | .ok parts =>
    let r := geminiRetryAll (backend parts) maxRetries
    match r.1 with
    | .error e => (.error ("failed to generate content: " ++ e), r.2)
    | .ok resp => (geminiExtract resp, r.2)

/-! ## Claim C6 -/

/-- C6 counterexample: when sniffing yields the generic octet-stream type
and the path's extension maps to no known MIME type, the resolved content
type is the EMPTY string (the raw extension-lookup result), not the
generic octet-stream type the claim promises — both for the fallback
chain itself and for a local blob resolved through `BlobInput.ToPart`. -/
theorem mime_fallback_empty_cx :
    inferBlobMime "application/octet-stream" "file.zzzz" = "" ∧
    "" ≠ "application/octet-stream" ∧
    (toPart ⟨fun _ => .ok [0], fun _ => .ok [0], fun _ => .ok "x",
        fun _ => "application/octet-stream"⟩ (.blob "file.zzzz")).1 =
      .ok (.blob "" [0]) := by
  exact ⟨by decide, by decide, rfl⟩

/-- C6 (amended): content-type resolution surfaces the sniffed type
unless it is the generic octet-stream type, in which case it surfaces the
extension lookup of the source path — which is the empty string, not
octet-stream, whenever the extension maps to no known MIME type. -/
theorem mime_fallback_chain (sniffed path : String) :
    (sniffed ≠ "application/octet-stream" → inferBlobMime sniffed path = sniffed) ∧
    (sniffed = "application/octet-stream" →
      inferBlobMime sniffed path = typeByExtension (pathExt path)) := by
  constructor
  · intro h
    simp [inferBlobMime, h]
  · intro h
    simp [inferBlobMime, h]

/-- Witness for the amended C6: a non-generic sniffed type is kept, and
the generic type falls back to the extension table. -/
theorem mime_fallback_chain_witness :
    inferBlobMime "image/png" "a.bin" = "image/png" ∧
    inferBlobMime "application/octet-stream" "a.png" = typeByExtension (pathExt "a.png") :=
  ⟨(mime_fallback_chain "image/png" "a.bin").1 (by decide),
    (mime_fallback_chain "application/octet-stream" "a.png").2 rfl⟩

/-! ## Claim C7 -/

/-- C7: `Invoke` resolves inputs one at a time in declaration order — a
success yields exactly the pointwise-in-order resolutions of the inputs
(`List.Forall₂`), and a failure is the error of the first input whose
resolution fails (all earlier inputs resolved successfully), returned
immediately with zero backend attempts and no partial result. -/
theorem invoke_resolution_order_failfast (env : Env)
    (backend : List GPart → Nat → Except String GeminiResponse)
    (maxRetries : Nat) (inputs : List Input) :
    (∀ ps, (resolveAll env inputs).1 = .ok ps ↔
      List.Forall₂ (fun i p => (toPart env i).1 = .ok p) inputs ps) ∧
    (∀ e, (resolveAll env inputs).1 = .error e →
      geminiInvoke env backend maxRetries inputs = (.error e, 0) ∧
      ∃ pre i rest, inputs = pre ++ i :: rest ∧ (toPart env i).1 = .error e ∧
        ∀ j ∈ pre, ∃ p, (toPart env j).1 = .ok p) := by
  constructor
  · intro ps
    induction inputs generalizing ps with
    | nil =>
      constructor
      · intro h
        simp only [resolveAll] at h
        cases h
        exact List.Forall₂.nil
      · intro h
        cases h
        rfl
    | cons i rest ih =>
      constructor
      · intro h
        simp only [resolveAll] at h
        rcases hi : toPart env i with ⟨ri, ci⟩
        rcases ri with e | p
        · rw [hi] at h
          simp at h
        · rw [hi] at h
          rcases hr : resolveAll env rest with ⟨rr, cr⟩
          rcases rr with e | qs
          · rw [hr] at h
            simp at h
          · rw [hr] at h
            simp only at h
            cases h
            refine List.Forall₂.cons (by simp [hi]) ?_
            exact (ih qs).1 (by simp [hr])
      · intro h
        cases h with
        | cons hip hrest =>
          rename_i p qs
          simp only [resolveAll]
          rcases hi : toPart env i with ⟨ri, ci⟩
          have : ri = .ok p := by
            have := hip
            rw [hi] at this
            exact this
          subst this
          have hr := (ih qs).2 hrest
          rcases hr2 : resolveAll env rest with ⟨rr, cr⟩
          rw [hr2] at hr
          simp only at hr
          subst hr
          simp
  · intro e
    induction inputs with
    | nil =>
      intro h
      simp [resolveAll] at h
    | cons i rest ih =>
      intro h
      simp only [resolveAll] at h
      rcases hi : toPart env i with ⟨ri, ci⟩
      rcases ri with e' | p
      · rw [hi] at h
        simp only at h
        cases h
        constructor
        · simp [geminiInvoke, resolveAll, hi]
        · exact ⟨[], i, rest, by simp, by simp [hi], by simp⟩
      · rw [hi] at h
        rcases hr : resolveAll env rest with ⟨rr, cr⟩
        rcases rr with e' | qs
        · rw [hr] at h
          simp only at h
          cases h
          have hrec := ih (by simp [hr])
          rcases hrec.2 with ⟨pre, j, tail, heq, herr, hok⟩
          constructor
          · simp [geminiInvoke, resolveAll, hi, hr]
          · refine ⟨i :: pre, j, tail, by simp [heq], herr, ?_⟩
            intro x hx
            rcases List.mem_cons.mp hx with hxi | hxp
            · exact ⟨p, by simp [hxi, hi]⟩
            · exact hok x hxp
        · rw [hr] at h
          simp at h

/-- Witness for C7: with a filesystem on which "missing" fails to read,
invoking with a text input followed by that blob aborts with the wrapped
read error and makes zero backend attempts. -/
theorem invoke_resolution_order_failfast_witness :
    geminiInvoke
      ⟨fun _ => .error "nofile", fun _ => .ok [1], fun _ => .ok "video/mp4", fun _ => "t"⟩
      (fun _ _ => .ok ⟨[["x"]]⟩) 2 [Input.text "hi", Input.blob "missing"] =
      (.error ("failed to read file: " ++ "nofile"), 0) :=
  ((invoke_resolution_order_failfast
      ⟨fun _ => .error "nofile", fun _ => .ok [1], fun _ => .ok "video/mp4", fun _ => "t"⟩
      (fun _ _ => .ok ⟨[["x"]]⟩) 2 [Input.text "hi", Input.blob "missing"]).2
    ("failed to read file: " ++ "nofile") rfl).1

/-! ## Claim C9 -/

/-- C9: the `BlobInput` variant is decided purely by string prefix — a
"gs://" path makes one metadata query, zero downloads and zero file
reads, and any successful part is an external file reference whose URI is
the path itself; a "http://" or "https://" path makes exactly one
download; every remaining path (including other URL schemes such as
"ftp://") is read from the local filesystem, with a failure surfacing the
wrapped read error. -/
theorem blob_dispatch_by_scheme (env : Env) (path : String) :
    (strHasPre path "gs://" = true →
      (toPart env (.blob path)).2 = ⟨0, 0, 1⟩ ∧
      ∀ p, (toPart env (.blob path)).1 = .ok p → ∃ mt, p = .fileData mt path) ∧
    (strHasPre path "gs://" = false →
      (strHasPre path "http://" = true ∨ strHasPre path "https://" = true) →
      (toPart env (.blob path)).2.downloads = 1 ∧
      (toPart env (.blob path)).2.metaQueries = 0) ∧
    (strHasPre path "gs://" = false → strHasPre path "http://" = false →
      strHasPre path "https://" = false →
      (toPart env (.blob path)).2 = ⟨0, 1, 0⟩ ∧
      (∀ e, env.fs path = .error e →
        (toPart env (.blob path)).1 = .error ("failed to read file: " ++ e)) ∧
      (∀ data, env.fs path = .ok data →
        (toPart env (.blob path)).1 =
          .ok (.blob (inferBlobMime (env.sniff data) path) data))) := by
  refine ⟨?_, ?_, ?_⟩
  · intro hgs
    cases hm : getGCSFileMimeType env path with
    | error e =>
      refine ⟨by simp [toPart, hgs, hm], ?_⟩
      intro p hp
      simp [toPart, hgs, hm] at hp
    | ok mt =>
      refine ⟨by simp [toPart, hgs, hm], ?_⟩
      intro p hp
      simp only [toPart, hgs, if_true, hm] at hp
      cases hp
      exact ⟨mt, rfl⟩
  · intro hgs hh
    have hor : (strHasPre path "http://" || strHasPre path "https://") = true := by
      rcases hh with h | h <;> simp [h]
    cases hd : env.httpGet path with
    | error e => simp [toPart, hgs, hor, hd]
    | ok data => simp [toPart, hgs, hor, hd]
  · intro hgs h1 h2
    have hor : (strHasPre path "http://" || strHasPre path "https://") = false := by
      simp [h1, h2]
    cases hf : env.fs path with
    | error e =>
      refine ⟨by simp [toPart, hgs, hor, hf], ?_, ?_⟩
      · intro e' he'
        cases he'
        simp [toPart, hgs, hor, hf]
      · intro data hdata
        cases hdata
    | ok data =>
      refine ⟨by simp [toPart, hgs, hor, hf], ?_, ?_⟩
      · intro e' he'
        cases he'
      · intro data' hdata
        cases hdata
        simp [toPart, hgs, hor, hf]

/-- Witness for C9: an "ftp://" path falls through to the local-filesystem
branch — one file read, no download, no metadata query — and a "gs://"
path resolves to a file reference with the path as URI. -/
theorem blob_dispatch_by_scheme_witness :
    (toPart ⟨fun _ => .ok [7], fun _ => .ok [1], fun _ => .ok "video/mp4", fun _ => "t"⟩
        (.blob "ftp://host/f")).2 = ⟨0, 1, 0⟩ ∧
    (toPart ⟨fun _ => .ok [7], fun _ => .ok [1], fun _ => .ok "video/mp4", fun _ => "t"⟩
        (.blob "gs://b/o.mp4")).2 = ⟨0, 0, 1⟩ :=
  ⟨((blob_dispatch_by_scheme
        ⟨fun _ => .ok [7], fun _ => .ok [1], fun _ => .ok "video/mp4", fun _ => "t"⟩
        "ftp://host/f").2.2 (by decide) (by decide) (by decide)).1,
    ((blob_dispatch_by_scheme
        ⟨fun _ => .ok [7], fun _ => .ok [1], fun _ => .ok "video/mp4", fun _ => "t"⟩
        "gs://b/o.mp4").1 (by decide)).1⟩

/-! ## Remote download temp-file lifecycle (`downloadFile`, gemini.go)

`DlWorld` fixes the outcome of each effectful step of one download: the
GET (transport error or status code), the temp-file creation, and the
body copy (`none` = success).  `DlState` records whether a temp file was
ever created and whether one is still present when the call returns. -/

structure DlWorld where
  getOutcome : Except String Nat
  createOutcome : Except String String
  copyOutcome : Option String

structure DlState where
  created : Bool
  present : Bool
deriving Repr, DecidableEq

/-- Embeds `downloadFile` (gemini.go lines 203-230): GET, reject non-2xx
statuses, create the temp file, copy the body into it (removing the temp
file on a copy error), and return the temp path. -/
def downloadFile (w : DlWorld) : Except String String × DlState :=
  match w.getOutcome with
  | .error e => (.error e, ⟨false, false⟩)
  | .ok status =>
    if status < 200 ∨ 300 ≤ status then
      (.error ("failed to download file, status code: " ++ toString status), ⟨false, false⟩)
    else
      match w.createOutcome with
      | .error e => (.error e, ⟨false, false⟩)
      | .ok _name =>
        match w.copyOutcome with
        | some e => (.error e, ⟨true, false⟩)
        | none => (.ok _name, ⟨true, true⟩)

/-- Embeds the HTTP branch of `BlobInput.ToPart` (gemini.go lines
110-128): download, then `defer os.Remove(tmpFile)`, then re-read the
temp file; the deferred removal runs on both the re-read failure path and
the success path. -/
def toPartHttpDetail (w : DlWorld) (readOutcome : Except String (List Nat))
    (path : String) (sniff : List Nat → String) : Except String GPart × DlState :=
  match downloadFile w with
  | (.error e, st) => (.error ("failed to download file: " ++ e), st)
  | (.ok _name, _) =>
    match readOutcome with
    | .error e => (.error ("failed to read downloaded file: " ++ e), ⟨true, false⟩)
    | .ok data => (.ok (.blob (inferBlobMime (sniff data) path) data), ⟨true, false⟩)

/-! ## Claim C8 -/

/-- C8: on every exit path of remote-blob resolution no transient file
remains — after the bytes are captured on success, on a failed or non-2xx
download, on a failed body copy, and whether or not the re-read of the
temp file succeeds; in particular every error exit of `downloadFile`
itself leaves no temp file behind. -/
theorem remote_blob_temp_cleanup (w : DlWorld) (readOutcome : Except String (List Nat))
    (path : String) (sniff : List Nat → String) :
    (toPartHttpDetail w readOutcome path sniff).2.present = false ∧
    (∀ e, (downloadFile w).1 = .error e → (downloadFile w).2.present = false) := by
  rcases hg : w.getOutcome with eg | status
  · simp [toPartHttpDetail, downloadFile, hg]
  · by_cases hs : status < 200 ∨ 300 ≤ status
    · simp [toPartHttpDetail, downloadFile, hg, hs]
    · rcases hc : w.createOutcome with ec | nm
      · simp [toPartHttpDetail, downloadFile, hg, hs, hc]
      · rcases hcp : w.copyOutcome with _ | ecp
        · cases readOutcome with
          | error e => simp [toPartHttpDetail, downloadFile, hg, hs, hc, hcp]
          | ok data => simp [toPartHttpDetail, downloadFile, hg, hs, hc, hcp]
        · simp [toPartHttpDetail, downloadFile, hg, hs, hc, hcp]

/-- Witness for C8: a download whose body copy fails leaves no temp file
present when `downloadFile` returns. -/
theorem remote_blob_temp_cleanup_witness :
    (downloadFile ⟨.ok 200, .ok "/tmp/x", some "copyfail"⟩).2.present = false :=
  (remote_blob_temp_cleanup ⟨.ok 200, .ok "/tmp/x", some "copyfail"⟩ (.ok [1])
    "http://h/f" (fun _ => "t")).2 "copyfail" rfl
